import Mathlib

/-!
Verification of the supply-chain optimization pipeline
(`01_data_transformation.py`, `02_optimization_model.py`).

The embedding uses exact rationals for the numeric columns; dataframes
become lists of records; pandas missing values (NaN) become `Option`.
-/

namespace SupplyChain

/-! ## Data transformation: `create_transportation_costs`

A `MergedRow` is one row of `merged_data`: the dense cross product of
warehouses and destinations left-merged with the per-pair shipment
aggregates.  An observed pair carries the per-pair mean `Cost`,
`Weight_kg` and `Distance_miles` (each `none` when every underlying
shipment lacked the column); an unobserved pair carries `none` in all
three columns. -/
structure MergedRow where
  fromW : String
  toC : String
  cost : Option ℚ
  weight : Option ℚ
  dist : Option ℚ
deriving DecidableEq

/-- pandas `Series.mean` on the non-missing entries (sum / count). -/
def qmean (l : List ℚ) : ℚ := l.sum / l.length

/-- `cost_data['cost_per_kg'] = cost_data['Cost'] / cost_data['Weight_kg']`:
missing when either operand is missing. -/
def costPerKg (r : MergedRow) : Option ℚ :=
  match r.cost, r.weight with
  | some c, some w => some (c / w)
  | _, _ => none

/-- The per-row ratios `merged_data['Cost'] / merged_data['Distance_miles']`,
keeping only rows where both are present (NaN rows are skipped by `mean`). -/
def mileRatios (rows : List MergedRow) : List ℚ :=
  rows.filterMap fun r =>
    match r.cost, r.dist with
    | some c, some d => some (c / d)
    | _, _ => none

/-- `avg_mile_cost = (merged_data['Cost'] / merged_data['Distance_miles']).mean()`. -/
def avgMileCost (rows : List MergedRow) : ℚ := qmean (mileRatios rows)

/-- The non-missing entries of `merged_data['Weight_kg']`. -/
def observedWeights (rows : List MergedRow) : List ℚ :=
  rows.filterMap fun r => r.weight

/-- `merged_data['Weight_kg'].mean()`. -/
def meanWeight (rows : List MergedRow) : ℚ := qmean (observedWeights rows)

/-- `estimated_cost_per_kg = Distance_miles * avg_mile_cost / Weight_kg.mean()`
(missing when the row's distance is missing). -/
def estimatedCostPerKg (rows : List MergedRow) (r : MergedRow) : Option ℚ :=
  r.dist.map fun d => d * avgMileCost rows / meanWeight rows

/-- `final_cost_per_kg = cost_per_kg.fillna(estimated_cost_per_kg)`. -/
def finalCostPerKg (rows : List MergedRow) (r : MergedRow) : Option ℚ :=
  match costPerKg r with
  | some v => some v
  | none => estimatedCostPerKg rows r

/-- The spec's fill-in formula, for comparison with the code's
`estimatedCostPerKg`: `distance * (mean observed cost / mean observed
distance across all routes with both values present)`. -/
def specEstimatedCostPerKg (rows : List MergedRow) (r : MergedRow) : Option ℚ :=
  let both := rows.filterMap fun q =>
    match q.cost, q.dist with
    | some c, some d => some (c, d)
    | _, _ => none
  r.dist.map fun d => d * (qmean (both.map Prod.fst) / qmean (both.map Prod.snd))

/-- Three observed routes; the third has no observed weight, so its
`cost_per_kg` is missing and is gap-filled. -/
def rowsC1 : List MergedRow :=
  [⟨"W1", "C1", some 1, some 1, some 1⟩,
   ⟨"W1", "C2", some 4, some 1, some 2⟩,
   ⟨"W2", "C1", some 6, none, some 2⟩]

/-- The gap-filled row of `rowsC1`. -/
def rowC1gap : MergedRow := ⟨"W2", "C1", some 6, none, some 2⟩

/-- A row of `rowsC1` with an observed cost-per-unit. -/
def rowC1obs : MergedRow := ⟨"W1", "C1", some 1, some 1, some 1⟩

/-- Claim C1, counterexample: on `rowsC1` the route ("W2","C1") has no
observed cost-per-unit, the code fills it with 4 (distance times the mean
of the per-route cost/distance ratios, divided by the mean observed
weight), while the spec's formula — distance times (mean observed cost /
mean observed distance) — gives 22/5.  The two disagree, so the filled-in
cost does not equal the spec's expression. -/
theorem costFill_spec_formula_false :
    costPerKg rowC1gap = none ∧ rowC1gap ∈ rowsC1 ∧
    finalCostPerKg rowsC1 rowC1gap = some 4 ∧
    specEstimatedCostPerKg rowsC1 rowC1gap = some (22 / 5) ∧
    finalCostPerKg rowsC1 rowC1gap ≠ specEstimatedCostPerKg rowsC1 rowC1gap := by
  refine ⟨rfl, by simp [rowsC1, rowC1gap], ?_, ?_, ?_⟩
  · norm_num [finalCostPerKg, costPerKg, estimatedCostPerKg, avgMileCost, meanWeight,
      qmean, mileRatios, observedWeights, rowsC1, rowC1gap, List.filterMap_cons]
  · norm_num [specEstimatedCostPerKg, qmean, rowsC1, rowC1gap, List.filterMap_cons]
  · norm_num [finalCostPerKg, costPerKg, estimatedCostPerKg, avgMileCost, meanWeight,
      specEstimatedCostPerKg, qmean, mileRatios, observedWeights, rowsC1, rowC1gap,
      List.filterMap_cons]

/-- Claim C1, amended: for every route whose observed cost-per-unit is
absent, the filled-in cost equals the route's distance multiplied by the
mean of the per-route (cost / distance) ratios over routes with both
values present, divided by the mean observed shipment weight; a route
with no observed distance stays unfilled. -/
theorem costFill_uses_mean_ratio_and_mean_weight (rows : List MergedRow) (r : MergedRow)
    (h : costPerKg r = none) :
    finalCostPerKg rows r = r.dist.map fun d =>
      d * ((mileRatios rows).sum / (mileRatios rows).length)
        / ((observedWeights rows).sum / (observedWeights rows).length) := by
  unfold finalCostPerKg
  rw [h]
  rfl

theorem costFill_uses_mean_ratio_and_mean_weight_witness :
    costPerKg rowC1gap = none ∧
    finalCostPerKg rowsC1 rowC1gap = rowC1gap.dist.map (fun d =>
      d * ((mileRatios rowsC1).sum / (mileRatios rowsC1).length)
        / ((observedWeights rowsC1).sum / (observedWeights rowsC1).length)) :=
  ⟨rfl, costFill_uses_mean_ratio_and_mean_weight rowsC1 rowC1gap rfl⟩

/-- Claim C10: the gap-fill step changes only routes with no observed
cost-per-unit — whenever the observed cost-per-unit is present, the final
cost-per-unit equals it unchanged. -/
theorem gapFill_preserves_observed_costs (rows : List MergedRow) (r : MergedRow) (v : ℚ)
    (h : costPerKg r = some v) : finalCostPerKg rows r = some v := by
  unfold finalCostPerKg
  rw [h]

theorem gapFill_preserves_observed_costs_witness :
    costPerKg rowC1obs = some 1 ∧ finalCostPerKg rowsC1 rowC1obs = some 1 :=
  ⟨by norm_num [costPerKg, rowC1obs],
   gapFill_preserves_observed_costs rowsC1 rowC1obs 1 (by norm_num [costPerKg, rowC1obs])⟩

/-! ## Optimization model (`02_optimization_model.py`)

The three input tables, after the transformation step. -/

/-- One row of `optimization_customers.csv`. -/
structure Customer where
  cid : String
  demand : ℚ
deriving DecidableEq

/-- One row of `optimization_warehouses.csv`. -/
structure Warehouse where
  wid : String
  capacity : ℚ
  fixedCost : ℚ
deriving DecidableEq

/-- One row of `optimization_transport_costs.csv`. -/
structure RouteCost where
  fromW : String
  toC : String
  cpk : ℚ
deriving DecidableEq

/-- The three dataframes consumed by the optimization script. -/
structure ProblemData where
  customers : List Customer
  warehouses : List Warehouse
  routes : List RouteCost
deriving DecidableEq

def totalDemand (inst : ProblemData) : ℚ := (inst.customers.map (·.demand)).sum

def totalCapacity (inst : ProblemData) : ℚ := (inst.warehouses.map (·.capacity)).sum

/-- Loader contract from the data model: non-empty tables, non-negative
demands, positive capacities, non-negative fixed costs, unique ids. -/
def Wellformed (inst : ProblemData) : Prop :=
  inst.customers ≠ [] ∧ inst.warehouses ≠ [] ∧
  (∀ c ∈ inst.customers, 0 ≤ c.demand) ∧
  (∀ w ∈ inst.warehouses, 0 < w.capacity ∧ 0 ≤ w.fixedCost) ∧
  (inst.customers.map (·.cid)).Nodup ∧ (inst.warehouses.map (·.wid)).Nodup

instance (inst : ProblemData) : Decidable (Wellformed inst) := by
  unfold Wellformed; infer_instance

/-! ### `calculate_capacity_constraints` -/

/-- Insertion step of a descending sort (embeds
`warehouses_df.sort_values('monthly_capacity', ascending=False)`). -/
def insertDesc (x : ℚ) : List ℚ → List ℚ
  | [] => [x]
  | y :: ys => if y ≤ x then x :: y :: ys else y :: insertDesc x ys

/-- Descending insertion sort of the capacity column. -/
def sortDesc : List ℚ → List ℚ
  | [] => []
  | x :: xs => insertDesc x (sortDesc xs)

/-- The loop over the descending-sorted capacities: accumulate capacity,
return the 1-based position at which the running sum first reaches the
demand, and 0 when the list is exhausted without reaching it. -/
def minWarehousesGo (dem : ℚ) : List ℚ → ℚ → Nat → Nat
  | [], _, _ => 0
  | c :: rest, acc, i => if dem ≤ acc + c then i + 1 else minWarehousesGo dem rest (acc + c) (i + 1)

/-- `calculate_capacity_constraints`: returns (MIN_WAREHOUSES, MAX_WAREHOUSES). -/
def calculateCapacityConstraints (inst : ProblemData) : Nat × Nat :=
  (minWarehousesGo (totalDemand inst) (sortDesc (inst.warehouses.map (·.capacity))) 0 0,
   inst.warehouses.length)

/-- Sum of the `k` largest capacities (the first `k` entries in descending
capacity order). -/
def topSum (caps : List ℚ) (k : Nat) : ℚ := ((sortDesc caps).take k).sum

/-! ### `build_optimization_model`: variables and constraints -/

/-- A valuation of the decision variables: `openV w` is the value of the
binary variable `Open_w`, `ship w c` the value of `Ship_(w,c)`. -/
structure Assignment where
  openV : String → ℚ
  ship : String → String → ℚ

/-- Total flow into customer `c`: `lpSum(shipment_vars[(w, customer)] for w ...)`. -/
def inflow (inst : ProblemData) (a : Assignment) (c : Customer) : ℚ :=
  (inst.warehouses.map fun w => a.ship w.wid c.cid).sum

/-- Total flow out of warehouse `w`: `lpSum(shipment_vars[(warehouse, c)] for c ...)`. -/
def outflow (inst : ProblemData) (a : Assignment) (w : Warehouse) : ℚ :=
  (inst.customers.map fun c => a.ship w.wid c.cid).sum

/-- Number of opened warehouses: `lpSum(open_warehouses[w] for w ...)`. -/
def openCount (inst : ProblemData) (a : Assignment) : ℚ :=
  (inst.warehouses.map fun w => a.openV w.wid).sum

/-- Variable domain: each `Open` variable is binary. -/
def BinaryOpen (inst : ProblemData) (a : Assignment) : Prop :=
  ∀ w ∈ inst.warehouses, a.openV w.wid = 0 ∨ a.openV w.wid = 1

/-- Variable domain: each `Ship` variable has `lowBound=0`. -/
def NonnegFlow (inst : ProblemData) (a : Assignment) : Prop :=
  ∀ w ∈ inst.warehouses, ∀ c ∈ inst.customers, 0 ≤ a.ship w.wid c.cid

/-- Constraint family 1, demand satisfaction (equality). -/
def DemandSat (inst : ProblemData) (a : Assignment) : Prop :=
  ∀ c ∈ inst.customers, inflow inst a c = c.demand

/-- Constraint family 2, capacity linkage:
`lpSum(ship[(w,c)] for c) <= capacity * open[w]`. -/
def CapacityLink (inst : ProblemData) (a : Assignment) : Prop :=
  ∀ w ∈ inst.warehouses, outflow inst a w ≤ w.capacity * a.openV w.wid

/-- Constraint family 3, strategic facility-count bounds. -/
def CountBounds (inst : ProblemData) (mn mx : Nat) (a : Assignment) : Prop :=
  (mn : ℚ) ≤ openCount inst a ∧ openCount inst a ≤ (mx : ℚ)

/-- Constraint family 4, per-route shipping logic:
`ship[(w,c)] <= open[w] * capacity`. -/
def PerRouteCap (inst : ProblemData) (a : Assignment) : Prop :=
  ∀ w ∈ inst.warehouses, ∀ c ∈ inst.customers, a.ship w.wid c.cid ≤ a.openV w.wid * w.capacity

/-- An assignment satisfies the built model: variable domains plus the
four constraint families added by `build_optimization_model`. -/
def Satisfies (inst : ProblemData) (mn mx : Nat) (a : Assignment) : Prop :=
  BinaryOpen inst a ∧ NonnegFlow inst a ∧ DemandSat inst a ∧
  CapacityLink inst a ∧ CountBounds inst mn mx a ∧ PerRouteCap inst a

instance (inst : ProblemData) (mn mx : Nat) (a : Assignment) :
    Decidable (Satisfies inst mn mx a) := by
  unfold Satisfies BinaryOpen NonnegFlow DemandSat CapacityLink CountBounds PerRouteCap
  infer_instance

/-! ### `solve_and_analyze`: solution extraction -/

/-- The key set of `shipment_vars`: `[(w, c) for w in warehouse ids for c
in customer ids]`. -/
def allPairs (inst : ProblemData) : List (String × String) :=
  inst.warehouses.flatMap fun w => inst.customers.map fun c => (w.wid, c.cid)

/-- `selected_warehouses`: the rows whose `Open` value exceeds 0.5. -/
def selectedWarehouses (inst : ProblemData) (a : Assignment) : List Warehouse :=
  inst.warehouses.filter fun w => decide ((1 / 2 : ℚ) < a.openV w.wid)

/-- The extracted list of activated facility ids. -/
def selectedIds (inst : ProblemData) (a : Assignment) : List String :=
  (selectedWarehouses inst a).map (·.wid)

/-- `total_fixed`: sum of fixed costs of the selected warehouses. -/
def totalFixed (inst : ProblemData) (a : Assignment) : ℚ :=
  ((selectedWarehouses inst a).map (·.fixedCost)).sum

/-- Transport-cost lookup
`transport_df.loc[(from == w) & (to == c), 'cost_per_kg'].values[0]`. -/
def lookupCost (inst : ProblemData) (w c : String) : ℚ :=
  ((inst.routes.find? fun r => r.fromW == w && r.toC == c).map (·.cpk)).getD 0

/-- The retained pairs of the shipment loop:
`if var.varValue > 0.1 and w in selected_warehouses`. -/
def extractedPairs (inst : ProblemData) (a : Assignment) : List (String × String) :=
  (allPairs inst).filter fun p =>
    decide ((1 / 10 : ℚ) < a.ship p.1 p.2 ∧ p.1 ∈ selectedIds inst a)

/-- Python's `round(x, 2)`: round half to even at two decimals. -/
def round2 (q : ℚ) : ℚ :=
  (let s := 100 * q
   let f := ⌊s⌋
   (if s - f < 1 / 2 then f else if 1 / 2 < s - f then f + 1
    else if 2 ∣ f then f else f + 1) : ℤ) / 100

/-- One row appended to `shipments`. -/
structure Shipment where
  src : String
  dst : String
  kg : ℚ
  cost : ℚ
deriving DecidableEq

/-- The `shipments` list built by the extraction loop. -/
def shipmentsOf (inst : ProblemData) (a : Assignment) : List Shipment :=
  (extractedPairs inst a).map fun p =>
    ⟨p.1, p.2, round2 (a.ship p.1 p.2), round2 (a.ship p.1 p.2 * lookupCost inst p.1 p.2)⟩

/-- `total_transport`: accumulated over the same retained pairs, unrounded. -/
def totalTransport (inst : ProblemData) (a : Assignment) : ℚ :=
  ((extractedPairs inst a).map fun p => a.ship p.1 p.2 * lookupCost inst p.1 p.2).sum

/-- The tuple returned by `solve_and_analyze` on the optimal path. -/
structure ExtractResult where
  shipments : List Shipment
  selected : List String
  fixedTotal : ℚ
  transportTotal : ℚ
deriving DecidableEq

/-- `solve_and_analyze` after the solver call: `status` is the pulp
status code (1 = Optimal) and `objective` the reported objective value;
a non-optimal status returns `None`, otherwise the extracted result. -/
def solveAndAnalyze (status : Int) (objective : ℚ) (inst : ProblemData) (a : Assignment) :
    Option ExtractResult :=
  if status ≠ 1 then none
  else some ⟨shipmentsOf inst a, selectedIds inst a, totalFixed inst a, totalTransport inst a⟩

/-- The per-facility utilization printed for each selected warehouse
(`shipped / capacity`, reported as a percentage in the source). -/
def utilization (inst : ProblemData) (a : Assignment) (w : Warehouse) : ℚ :=
  outflow inst a w / w.capacity

/-- Sum of the extracted flows into customer `c` (unrounded flow values
of the retained shipments whose destination is `c`). -/
def extractedInflow (inst : ProblemData) (a : Assignment) (c : Customer) : ℚ :=
  ((inst.warehouses.filter fun w =>
      decide ((1 / 10 : ℚ) < a.ship w.wid c.cid ∧ w.wid ∈ selectedIds inst a)).map
    fun w => a.ship w.wid c.cid).sum

/-- The artifacts persisted by `main` when `solve_and_analyze` returns a
result: `optimization_shipments.csv`, `optimization_results.txt` and the
summary. `main` writes nothing when the result is `None`. -/
structure Artifacts where
  shipmentsCsv : List Shipment
  openedWarehouses : List String
  fixedCost : ℚ
  transportCost : ℚ
deriving DecidableEq

/-- The tail of `main`: persist artifacts only when extraction succeeded. -/
def runArtifacts (status : Int) (objective : ℚ) (inst : ProblemData) (a : Assignment) :
    Option Artifacts :=
  match solveAndAnalyze status objective inst a with
  | some r => some ⟨r.shipments, r.selected, r.fixedTotal, r.transportTotal⟩
  | none => none

/-! ### Concrete instances used as witnesses and counterexamples -/

/-- One warehouse (capacity 10, fixed cost 100), one customer (demand 5),
route cost 2 per kg. -/
def instBig : ProblemData := ⟨[⟨"C1", 5⟩], [⟨"W1", 10, 100⟩], [⟨"W1", "C1", 2⟩]⟩

def custBig : Customer := ⟨"C1", 5⟩

def whBig : Warehouse := ⟨"W1", 10, 100⟩

/-- Open the warehouse, ship the full demand. -/
def aBig : Assignment := ⟨fun _ => 1, fun _ _ => 5⟩

/-- One warehouse (capacity 1), one customer with demand 1/20 = 0.05,
below the 0.1 flow-extraction cutoff. -/
def instTiny : ProblemData := ⟨[⟨"C1", 1 / 20⟩], [⟨"W1", 1, 1⟩], [⟨"W1", "C1", 1⟩]⟩

def custTiny : Customer := ⟨"C1", 1 / 20⟩

/-- The unique assignment satisfying the model on `instTiny`. -/
def aTiny : Assignment := ⟨fun _ => 1, fun _ _ => 1 / 20⟩

/-- A zero-demand customer with one warehouse. -/
def instZero : ProblemData := ⟨[⟨"C1", 0⟩], [⟨"W1", 10, 5⟩], [⟨"W1", "C1", 2⟩]⟩

def whZero : Warehouse := ⟨"W1", 10, 5⟩

/-- The unique satisfying assignment on `instZero`: the warehouse must be
opened (MIN_WAREHOUSES = 1) but ships nothing. -/
def aZero : Assignment := ⟨fun _ => 1, fun _ _ => 0⟩

/-- Total capacity 5 strictly below total demand 10. -/
def instShort : ProblemData := ⟨[⟨"C1", 10⟩], [⟨"W1", 5, 3⟩], [⟨"W1", "C1", 1⟩]⟩

/-! ### Helper lemmas -/

theorem sum_map_filter_add {α : Type} (l : List α) (p : α → Bool) (f : α → ℚ) :
    ((l.filter p).map f).sum + ((l.filter fun x => !p x).map f).sum = (l.map f).sum := by
  induction l with
  | nil => simp
  | cons x xs ih =>
    by_cases h : p x = true <;>
      simp only [List.filter_cons, h, Bool.not_true, Bool.not_false, if_true, if_false,
        Bool.false_eq_true, ite_false, ite_true, List.map_cons, List.sum_cons] <;>
      linarith [ih]

theorem sum_map_nonneg {α : Type} (l : List α) (f : α → ℚ) (h : ∀ x ∈ l, 0 ≤ f x) :
    0 ≤ (l.map f).sum :=
  List.sum_nonneg fun x hx => by
    obtain ⟨y, hy, rfl⟩ := List.mem_map.mp hx
    exact h y hy

theorem sum_map_le_length_mul {α : Type} (l : List α) (f : α → ℚ) (b : ℚ)
    (h : ∀ x ∈ l, f x ≤ b) : (l.map f).sum ≤ l.length * b := by
  have h1 : (l.map f).sum ≤ (l.map f).length • b :=
    List.sum_le_card_nsmul (l.map f) b fun x hx => by
      obtain ⟨y, hy, rfl⟩ := List.mem_map.mp hx
      exact h y hy
  simpa [nsmul_eq_mul] using h1

theorem mem_insertDesc {x y : ℚ} : ∀ {l : List ℚ}, y ∈ insertDesc x l → y = x ∨ y ∈ l := by
  intro l
  induction l with
  | nil => simp [insertDesc]
  | cons z zs ih =>
    simp only [insertDesc]
    by_cases h : z ≤ x <;> simp only [h, if_true, if_false, List.mem_cons, ite_true, ite_false]
    · tauto
    · rintro (rfl | hm)
      · tauto
      · rcases ih hm with rfl | hm2 <;> tauto

theorem sum_insertDesc (x : ℚ) : ∀ (l : List ℚ), (insertDesc x l).sum = x + l.sum := by
  intro l
  induction l with
  | nil => simp [insertDesc]
  | cons z zs ih =>
    simp only [insertDesc]
    by_cases h : z ≤ x
    · simp only [h, ite_true, List.sum_cons]
    · simp only [h, ite_false, List.sum_cons, ih]
      ring

theorem length_insertDesc (x : ℚ) : ∀ (l : List ℚ), (insertDesc x l).length = l.length + 1 := by
  intro l
  induction l with
  | nil => simp [insertDesc]
  | cons z zs ih =>
    simp only [insertDesc]
    by_cases h : z ≤ x <;> simp [h, ih]

theorem mem_sortDesc {y : ℚ} : ∀ {l : List ℚ}, y ∈ sortDesc l → y ∈ l := by
  intro l
  induction l with
  | nil => simp [sortDesc]
  | cons z zs ih =>
    intro hm
    rcases mem_insertDesc hm with rfl | hm2
    · exact List.mem_cons_self _ _
    · exact List.mem_cons_of_mem _ (ih hm2)

theorem sum_sortDesc : ∀ (l : List ℚ), (sortDesc l).sum = l.sum := by
  intro l
  induction l with
  | nil => rfl
  | cons z zs ih => simp [sortDesc, sum_insertDesc, ih]

theorem length_sortDesc : ∀ (l : List ℚ), (sortDesc l).length = l.length := by
  intro l
  induction l with
  | nil => rfl
  | cons z zs ih => simp [sortDesc, length_insertDesc, ih]

/-- When the running capacity never reaches the demand, the loop falls
through and `min_warehouses` keeps its initial value 0. -/
theorem minGo_eq_zero (dem : ℚ) :
    ∀ (l : List ℚ) (acc : ℚ) (i : Nat), (∀ x ∈ l, 0 ≤ x) → acc + l.sum < dem →
      minWarehousesGo dem l acc i = 0 := by
  intro l
  induction l with
  | nil => intro acc i _ _; rfl
  | cons c rest ih =>
    intro acc i hnn hlt
    have hr : 0 ≤ rest.sum :=
      List.sum_nonneg fun x hx => hnn x (List.mem_cons_of_mem _ hx)
    simp only [List.sum_cons] at hlt
    have hc : ¬ dem ≤ acc + c := by intro hle; linarith
    simp only [minWarehousesGo, hc, ite_false]
    apply ih (acc + c) (i + 1) fun x hx => hnn x (List.mem_cons_of_mem _ hx)
    linarith

/-- When the total remaining capacity reaches the demand, the loop stops
at the first 1-based prefix position whose accumulated sum reaches it. -/
theorem minGo_reaches (dem : ℚ) :
    ∀ (l : List ℚ) (acc : ℚ) (i : Nat), l ≠ [] → dem ≤ acc + l.sum →
      ∃ j, minWarehousesGo dem l acc i = i + j ∧ 1 ≤ j ∧ j ≤ l.length ∧
        dem ≤ acc + (l.take j).sum ∧
        ∀ j2, 1 ≤ j2 → j2 < j → ¬ dem ≤ acc + (l.take j2).sum := by
  intro l
  induction l with
  | nil => intro acc i h; exact absurd rfl h
  | cons c rest ih =>
    intro acc i _ hsum
    by_cases hc : dem ≤ acc + c
    · refine ⟨1, by simp [minWarehousesGo, hc], le_refl 1, by simp, by simpa using hc, ?_⟩
      intro j2 h1 h2
      omega
    · cases rest with
      | nil =>
        exfalso
        simp only [List.sum_cons, List.sum_nil, add_zero] at hsum
        exact hc hsum
      | cons d ds =>
        have hsum2 : dem ≤ (acc + c) + (d :: ds).sum := by
          simp only [List.sum_cons] at hsum ⊢
          linarith
        obtain ⟨j, hgo, hj1, hjlen, hreach, hmin⟩ := ih (acc + c) (i + 1) (by simp) hsum2
        refine ⟨j + 1, ?_, by omega, ?_, ?_, ?_⟩
        · show (if dem ≤ acc + c then i + 1
            else minWarehousesGo dem (d :: ds) (acc + c) (i + 1)) = i + (j + 1)
          rw [if_neg hc, hgo]
          omega
        · simp only [List.length_cons] at hjlen ⊢
          omega
        · simp only [List.take_succ_cons, List.sum_cons]
          rw [← add_assoc]
          exact hreach
        · intro j2 h1 h2
          cases j2 with
          | zero => omega
          | succ k =>
            cases k with
            | zero =>
              intro hle
              apply hc
              simpa using hle
            | succ m =>
              intro hle
              apply hmin (m + 1) (by omega) (by omega)
              simp only [List.take_succ_cons, List.sum_cons] at hle
              rw [← add_assoc] at hle
              exact hle

/-- Claim C3, counterexample: on a one-warehouse table with total demand
0 and total capacity 5 the least `k` with `topSum k ≥ total demand` is
`k = 0` (the empty prefix already reaches a zero demand), but the
estimator returns `minFacilities = 1`. -/
theorem feasible_range_least_false :
    Wellformed instZero ∧ totalDemand instZero ≤ totalCapacity instZero ∧
    totalDemand instZero ≤ topSum (instZero.warehouses.map (·.capacity)) 0 ∧
    (calculateCapacityConstraints instZero).1 = 1 := by
  refine ⟨by norm_num [Wellformed, instZero], by norm_num [totalDemand, totalCapacity, instZero],
    by norm_num [totalDemand, topSum, instZero], ?_⟩
  norm_num [calculateCapacityConstraints, minWarehousesGo, sortDesc, insertDesc,
    totalDemand, instZero]

/-- Claim C3, amended: for every non-empty facility table whose total
capacity is at least total demand, `maxFacilities` is the facility count
and `minFacilities` is the least `k ≥ 1` such that the sum of the `k`
largest capacities (descending capacity order) is at least total demand. -/
theorem feasible_range_greedy_min (inst : ProblemData) (hwf : Wellformed inst)
    (hcap : totalDemand inst ≤ totalCapacity inst) :
    (calculateCapacityConstraints inst).2 = inst.warehouses.length ∧
    1 ≤ (calculateCapacityConstraints inst).1 ∧
    (calculateCapacityConstraints inst).1 ≤ inst.warehouses.length ∧
    totalDemand inst ≤
      topSum (inst.warehouses.map (·.capacity)) (calculateCapacityConstraints inst).1 ∧
    ∀ k, 1 ≤ k → totalDemand inst ≤ topSum (inst.warehouses.map (·.capacity)) k →
      (calculateCapacityConstraints inst).1 ≤ k := by
  set caps := inst.warehouses.map (·.capacity) with hcaps
  have hlen : (sortDesc caps).length = inst.warehouses.length := by
    rw [length_sortDesc, hcaps, List.length_map]
  have hne : sortDesc caps ≠ [] := by
    intro hnil
    have h0 : inst.warehouses.length = 0 := by rw [← hlen, hnil]; rfl
    exact hwf.2.1 (List.length_eq_zero.mp h0)
  have hsum : totalDemand inst ≤ 0 + (sortDesc caps).sum := by
    rw [zero_add, sum_sortDesc]
    exact hcap
  obtain ⟨j, hgo, hj1, hjlen, hreach, hmin⟩ :=
    minGo_reaches (totalDemand inst) (sortDesc caps) 0 0 hne hsum
  have hfst : (calculateCapacityConstraints inst).1 = j := by
    show minWarehousesGo (totalDemand inst) (sortDesc caps) 0 0 = j
    rw [hgo]
    omega
  refine ⟨rfl, ?_, ?_, ?_, ?_⟩
  · rw [hfst]; exact hj1
  · rw [hfst]; rw [← hlen]; exact hjlen
  · rw [hfst]
    show totalDemand inst ≤ ((sortDesc caps).take j).sum
    have := hreach
    rw [zero_add] at this
    exact this
  · intro k hk1 hkreach
    rw [hfst]
    by_contra hlt
    push_neg at hlt
    apply hmin k hk1 hlt
    rw [zero_add]
    exact hkreach

theorem feasible_range_greedy_min_witness :
    Wellformed instBig ∧ totalDemand instBig ≤ totalCapacity instBig ∧
    ((calculateCapacityConstraints instBig).2 = instBig.warehouses.length ∧
     1 ≤ (calculateCapacityConstraints instBig).1 ∧
     (calculateCapacityConstraints instBig).1 ≤ instBig.warehouses.length ∧
     totalDemand instBig ≤
       topSum (instBig.warehouses.map (·.capacity)) (calculateCapacityConstraints instBig).1 ∧
     ∀ k, 1 ≤ k → totalDemand instBig ≤ topSum (instBig.warehouses.map (·.capacity)) k →
       (calculateCapacityConstraints instBig).1 ≤ k) :=
  ⟨by norm_num [Wellformed, instBig],
   by norm_num [totalDemand, totalCapacity, instBig],
   feasible_range_greedy_min instBig (by norm_num [Wellformed, instBig])
     (by norm_num [totalDemand, totalCapacity, instBig])⟩

/-- Claim C4, counterexample: with total capacity 5 and total demand 10
the estimator does not signal infeasibility — it returns the ordinary
pair `(0, 1)`, i.e. a minimum facility count of 0. -/
theorem infeasible_signal_false :
    Wellformed instShort ∧ totalCapacity instShort < totalDemand instShort ∧
    calculateCapacityConstraints instShort = (0, 1) := by
  refine ⟨by norm_num [Wellformed, instShort],
    by norm_num [totalDemand, totalCapacity, instShort], ?_⟩
  norm_num [calculateCapacityConstraints, minWarehousesGo, sortDesc, insertDesc,
    totalDemand, instShort]

/-- Claim C4, amended: when total capacity is strictly below total
demand, the estimator returns `minFacilities = 0` together with
`maxFacilities = facility count` — a sentinel pair, never a minimum
exceeding the facility count, but also no explicit infeasibility signal
(the model is later reported infeasible by the solver). -/
theorem infeasible_returns_zero (inst : ProblemData) (hwf : Wellformed inst)
    (h : totalCapacity inst < totalDemand inst) :
    calculateCapacityConstraints inst = (0, inst.warehouses.length) := by
  unfold calculateCapacityConstraints
  refine Prod.ext ?_ rfl
  show minWarehousesGo (totalDemand inst) (sortDesc (inst.warehouses.map (·.capacity))) 0 0 = 0
  apply minGo_eq_zero
  · intro x hx
    obtain ⟨w, hw, rfl⟩ := List.mem_map.mp (mem_sortDesc hx)
    exact (hwf.2.2.2.1 w hw).1.le
  · rw [zero_add, sum_sortDesc]
    exact h

theorem infeasible_returns_zero_witness :
    Wellformed instShort ∧ totalCapacity instShort < totalDemand instShort ∧
    calculateCapacityConstraints instShort = (0, instShort.warehouses.length) :=
  ⟨by norm_num [Wellformed, instShort],
   by norm_num [totalDemand, totalCapacity, instShort],
   infeasible_returns_zero instShort (by norm_num [Wellformed, instShort])
     (by norm_num [totalDemand, totalCapacity, instShort])⟩

/-! ### Extraction lemmas -/

theorem mem_selectedIds_of_open (inst : ProblemData) (a : Assignment) (w : Warehouse)
    (hw : w ∈ inst.warehouses) (h : (1 / 2 : ℚ) < a.openV w.wid) :
    w.wid ∈ selectedIds inst a :=
  List.mem_map.mpr ⟨w, List.mem_filter.mpr ⟨hw, by simpa using h⟩, rfl⟩

theorem ship_nonpos_of_not_selected (inst : ProblemData) (a : Assignment) (w : Warehouse)
    (c : Customer) (hw : w ∈ inst.warehouses) (hc : c ∈ inst.customers)
    (hb : BinaryOpen inst a) (hpr : PerRouteCap inst a)
    (hns : w.wid ∉ selectedIds inst a) : a.ship w.wid c.cid ≤ 0 := by
  have hop : a.openV w.wid = 0 := by
    rcases hb w hw with h0 | h1
    · exact h0
    · exact absurd (mem_selectedIds_of_open inst a w hw (by rw [h1]; norm_num)) hns
  have hbound := hpr w hw c hc
  rw [hop, zero_mul] at hbound
  exact hbound

/-- Claim C8: for every assignment with non-negative flows and binary
open variables, the per-route bounds (constraint family 4) follow from
the facility capacity-linkage constraints (family 2); and both families
are conjuncts of the built model's constraint set. -/
theorem per_route_redundant (inst : ProblemData) (a : Assignment)
    (hb : BinaryOpen inst a) (hn : NonnegFlow inst a) (hcap : CapacityLink inst a) :
    PerRouteCap inst a ∧
    ∀ mn mx, Satisfies inst mn mx a → CapacityLink inst a ∧ PerRouteCap inst a := by
  constructor
  · intro w hw c hc
    have h1 : a.ship w.wid c.cid ≤ outflow inst a w := by
      apply List.single_le_sum
      · intro x hx
        obtain ⟨c2, hc2, rfl⟩ := List.mem_map.mp hx
        exact hn w hw c2 hc2
      · exact List.mem_map.mpr ⟨c, hc, rfl⟩
    calc a.ship w.wid c.cid ≤ outflow inst a w := h1
      _ ≤ w.capacity * a.openV w.wid := hcap w hw
      _ = a.openV w.wid * w.capacity := mul_comm _ _
  · intro mn mx hs
    exact ⟨hs.2.2.2.1, hs.2.2.2.2.2⟩

theorem per_route_redundant_witness : PerRouteCap instBig aBig :=
  (per_route_redundant instBig aBig
    (by norm_num [BinaryOpen, instBig, aBig])
    (by norm_num [NonnegFlow, instBig, aBig])
    (by norm_num [CapacityLink, outflow, instBig, aBig])).1

/-- Claim C9: a solver status other than Optimal aborts the run —
extraction returns no result and `main` persists no shipment plan and no
result artifact. -/
theorem errors_abort_without_artifacts (status : Int) (objective : ℚ) (inst : ProblemData)
    (a : Assignment) (h : status ≠ 1) :
    solveAndAnalyze status objective inst a = none ∧
    runArtifacts status objective inst a = none := by
  have h1 : solveAndAnalyze status objective inst a = none := by
    simp [solveAndAnalyze, h]
  exact ⟨h1, by simp [runArtifacts, h1]⟩

theorem errors_abort_without_artifacts_witness :
    solveAndAnalyze (-1) 0 instBig aBig = none ∧ runArtifacts (-1) 0 instBig aBig = none :=
  errors_abort_without_artifacts (-1) 0 instBig aBig (by norm_num)

/-- Claim C6: for every assignment satisfying the built model, the
extracted positive flows are exactly the variable keys whose flow value
exceeds the fixed epsilon 0.1 (the extra `w in selected_warehouses` test
in the source never excludes such a pair, because a positive flow forces
its warehouse open). -/
theorem positive_flows_exact (inst : ProblemData) (mn mx : Nat) (a : Assignment)
    (hs : Satisfies inst mn mx a) (w c : String) :
    (w, c) ∈ extractedPairs inst a ↔
      (w, c) ∈ allPairs inst ∧ (1 / 10 : ℚ) < a.ship w c := by
  obtain ⟨hb, hn, hd, hcap, hcnt, hpr⟩ := hs
  constructor
  · intro hm
    have hsplit := List.mem_filter.mp hm
    exact ⟨hsplit.1, (of_decide_eq_true hsplit.2).1⟩
  · rintro ⟨hall, hgt⟩
    apply List.mem_filter.mpr
    refine ⟨hall, decide_eq_true ⟨hgt, ?_⟩⟩
    obtain ⟨wh, hwh, hrest⟩ := List.mem_flatMap.mp hall
    obtain ⟨cu, hcu, heq⟩ := List.mem_map.mp hrest
    rw [Prod.mk.injEq] at heq
    obtain ⟨hww, hcc⟩ := heq
    subst hww
    subst hcc
    rcases hb wh hwh with h0 | h1
    · exfalso
      have hbound := hpr wh hwh cu hcu
      rw [h0, zero_mul] at hbound
      linarith
    · exact mem_selectedIds_of_open inst a wh hwh (by rw [h1]; norm_num)

theorem positive_flows_exact_witness :
    ("W1", "C1") ∈ extractedPairs instBig aBig ↔
      ("W1", "C1") ∈ allPairs instBig ∧ (1 / 10 : ℚ) < aBig.ship "W1" "C1" :=
  positive_flows_exact instBig 1 1 aBig
    (by norm_num [Satisfies, BinaryOpen, NonnegFlow, DemandSat, CapacityLink, CountBounds,
      PerRouteCap, inflow, outflow, openCount, instBig, aBig]) "W1" "C1"

/-- Claim C7, counterexample: on `instZero` the unique satisfying
assignment activates the warehouse (the facility-count lower bound is 1)
with zero outbound flow, so its utilization is 0 — outside (0, 1] — and
extraction still returns a result without flagging anything. -/
theorem utilization_zero_unflagged :
    Wellformed instZero ∧ Satisfies instZero 1 1 aZero ∧
    calculateCapacityConstraints instZero = (1, 1) ∧
    whZero ∈ selectedWarehouses instZero aZero ∧
    utilization instZero aZero whZero = 0 ∧
    (solveAndAnalyze 1 5 instZero aZero).isSome = true := by
  refine ⟨by norm_num [Wellformed, instZero], ?_, ?_, ?_, ?_, by simp [solveAndAnalyze]⟩
  · norm_num [Satisfies, BinaryOpen, NonnegFlow, DemandSat, CapacityLink, CountBounds,
      PerRouteCap, inflow, outflow, openCount, instZero, aZero]
  · norm_num [calculateCapacityConstraints, minWarehousesGo, sortDesc, insertDesc,
      totalDemand, instZero]
  · norm_num [selectedWarehouses, instZero, aZero, whZero]
  · norm_num [utilization, outflow, instZero, aZero, whZero]

/-- Claim C7, amended: for every activated facility of a satisfying
assignment the utilization lies in the closed interval [0, 1]; a
utilization of 0 is possible (an activated facility may ship nothing)
and the extractor does not flag it. -/
theorem utilization_in_unit_interval (inst : ProblemData) (mn mx : Nat) (a : Assignment)
    (hwf : Wellformed inst) (hs : Satisfies inst mn mx a) :
    ∀ w ∈ selectedWarehouses inst a,
      0 ≤ utilization inst a w ∧ utilization inst a w ≤ 1 := by
  obtain ⟨hb, hn, hd, hcap, hcnt, hpr⟩ := hs
  intro w hw
  have hmem := (List.mem_filter.mp hw).1
  have hopen : (1 / 2 : ℚ) < a.openV w.wid := of_decide_eq_true (List.mem_filter.mp hw).2
  have hcappos : 0 < w.capacity := (hwf.2.2.2.1 w hmem).1
  have hone : a.openV w.wid = 1 := by
    rcases hb w hmem with h0 | h1
    · rw [h0] at hopen; norm_num at hopen
    · exact h1
  have hout : outflow inst a w ≤ w.capacity := by
    have hlink := hcap w hmem
    rw [hone, mul_one] at hlink
    exact hlink
  have houtnn : 0 ≤ outflow inst a w :=
    sum_map_nonneg _ _ fun c hc => hn w hmem c hc
  constructor
  · exact div_nonneg houtnn hcappos.le
  · show outflow inst a w / w.capacity ≤ 1
    rw [div_le_one hcappos]
    exact hout

theorem utilization_in_unit_interval_witness :
    0 ≤ utilization instBig aBig whBig ∧ utilization instBig aBig whBig ≤ 1 :=
  utilization_in_unit_interval instBig 1 1 aBig (by norm_num [Wellformed, instBig])
    (by norm_num [Satisfies, BinaryOpen, NonnegFlow, DemandSat, CapacityLink, CountBounds,
      PerRouteCap, inflow, outflow, openCount, instBig, aBig]) whBig
    (by norm_num [selectedWarehouses, instBig, aBig, whBig])

/-- Claim C2, counterexample: on `instTiny` (demand 0.05, one warehouse)
the unique satisfying assignment routes the full demand, but its flow
0.05 is below the extraction threshold 0.1, so the extracted inflow is 0
— a relative error of 100%, far beyond 1e-6. -/
theorem extracted_demand_tolerance_false :
    Wellformed instTiny ∧ calculateCapacityConstraints instTiny = (1, 1) ∧
    Satisfies instTiny 1 1 aTiny ∧ custTiny ∈ instTiny.customers ∧
    extractedInflow instTiny aTiny custTiny = 0 ∧
    ¬ |extractedInflow instTiny aTiny custTiny - custTiny.demand| ≤
        (1 / 1000000) * custTiny.demand := by
  have h0 : extractedInflow instTiny aTiny custTiny = 0 := by
    norm_num [extractedInflow, selectedIds, selectedWarehouses, instTiny, aTiny, custTiny]
  refine ⟨by norm_num [Wellformed, instTiny], ?_, ?_,
    by norm_num [instTiny, custTiny], h0, ?_⟩
  · norm_num [calculateCapacityConstraints, minWarehousesGo, sortDesc, insertDesc,
      totalDemand, instTiny]
  · norm_num [Satisfies, BinaryOpen, NonnegFlow, DemandSat, CapacityLink, CountBounds,
      PerRouteCap, inflow, outflow, openCount, instTiny, aTiny]
  · rw [h0]
    intro habs
    rw [abs_le] at habs
    have hlow := habs.1
    norm_num [custTiny] at hlow

/-- Claim C2, amended: the built model forces the total inbound flow of
every demand point to equal its demand exactly; the extraction step then
drops flows at or below 0.1 (and flows from unselected facilities, which
are 0), so the extracted inflow equals the demand only up to 0.1 per
candidate facility: it lies in
[demand − 0.1·(number of facilities), demand]. -/
theorem extracted_demand_within_threshold (inst : ProblemData) (mn mx : Nat) (a : Assignment)
    (hs : Satisfies inst mn mx a) (c : Customer) (hc : c ∈ inst.customers) :
    inflow inst a c = c.demand ∧
    extractedInflow inst a c ≤ c.demand ∧
    c.demand - (1 / 10) * inst.warehouses.length ≤ extractedInflow inst a c := by
  obtain ⟨hb, hn, hd, hcap, hcnt, hpr⟩ := hs
  have hin : inflow inst a c = c.demand := hd c hc
  set p : Warehouse → Bool := fun w =>
    decide ((1 / 10 : ℚ) < a.ship w.wid c.cid ∧ w.wid ∈ selectedIds inst a) with hp
  have hsplit := sum_map_filter_add inst.warehouses p fun w => a.ship w.wid c.cid
  have hkept : extractedInflow inst a c =
      ((inst.warehouses.filter p).map fun w => a.ship w.wid c.cid).sum := rfl
  have hdropbound : ∀ w ∈ inst.warehouses.filter (fun x => !p x),
      a.ship w.wid c.cid ≤ 1 / 10 := by
    intro w hw
    have hmem := (List.mem_filter.mp hw).1
    have hnp : p w = false := by
      have hb2 := (List.mem_filter.mp hw).2
      simpa using hb2
    have hnot : ¬ ((1 / 10 : ℚ) < a.ship w.wid c.cid ∧ w.wid ∈ selectedIds inst a) := by
      rw [hp] at hnp
      exact of_decide_eq_false hnp
    by_cases hsel : w.wid ∈ selectedIds inst a
    · have hle : ¬ (1 / 10 : ℚ) < a.ship w.wid c.cid := fun hgt => hnot ⟨hgt, hsel⟩
      linarith [not_lt.mp hle]
    · have hnsp := ship_nonpos_of_not_selected inst a w c hmem hc hb hpr hsel
      linarith
  have hdropnn : ∀ w ∈ inst.warehouses.filter (fun x => !p x),
      0 ≤ a.ship w.wid c.cid := fun w hw => hn w (List.mem_filter.mp hw).1 c hc
  have hub : ((inst.warehouses.filter (fun x => !p x)).map fun w => a.ship w.wid c.cid).sum ≤
      ((inst.warehouses.filter (fun x => !p x)).length : ℚ) * (1 / 10) :=
    sum_map_le_length_mul _ _ _ hdropbound
  have hlb : 0 ≤ ((inst.warehouses.filter (fun x => !p x)).map fun w => a.ship w.wid c.cid).sum :=
    sum_map_nonneg _ _ hdropnn
  have hlenle : ((inst.warehouses.filter (fun x => !p x)).length : ℚ) ≤
      (inst.warehouses.length : ℚ) := by
    exact_mod_cast List.length_filter_le _ _
  have hub2 : ((inst.warehouses.filter (fun x => !p x)).map fun w => a.ship w.wid c.cid).sum ≤
      (inst.warehouses.length : ℚ) * (1 / 10) :=
    le_trans hub (mul_le_mul_of_nonneg_right hlenle (by norm_num))
  have hinflow : ((inst.warehouses.map fun w => a.ship w.wid c.cid)).sum = c.demand := hin
  refine ⟨hin, ?_, ?_⟩
  · rw [hkept]; linarith
  · rw [hkept]; linarith

theorem extracted_demand_within_threshold_witness :
    Satisfies instBig 1 1 aBig ∧ custBig ∈ instBig.customers ∧
    (inflow instBig aBig custBig = custBig.demand ∧
     extractedInflow instBig aBig custBig ≤ custBig.demand ∧
     custBig.demand - (1 / 10) * instBig.warehouses.length ≤
       extractedInflow instBig aBig custBig) :=
  ⟨by norm_num [Satisfies, BinaryOpen, NonnegFlow, DemandSat, CapacityLink, CountBounds,
      PerRouteCap, inflow, outflow, openCount, instBig, aBig],
   by norm_num [instBig, custBig],
   extracted_demand_within_threshold instBig 1 1 aBig
     (by norm_num [Satisfies, BinaryOpen, NonnegFlow, DemandSat, CapacityLink, CountBounds,
       PerRouteCap, inflow, outflow, openCount, instBig, aBig]) custBig
     (by norm_num [instBig, custBig])⟩

/-- Claim C5, counterexample: extraction succeeds and reports the cost
breakdown 100 + 10 = 110 even when the reported objective is 999 — a
mismatch of 889, far beyond any numerical tolerance — with no error of
any kind: the objective is never compared against the breakdown. -/
theorem objective_mismatch_unchecked :
    Satisfies instBig 1 1 aBig ∧
    totalFixed instBig aBig + totalTransport instBig aBig = 110 ∧
    ((solveAndAnalyze 1 999 instBig aBig).map fun r => r.fixedTotal + r.transportTotal) =
      some 110 ∧
    ¬ |(110 : ℚ) - 999| ≤ (1 / 1000000) * 999 := by
  have hft : totalFixed instBig aBig = 100 := by
    norm_num [totalFixed, selectedWarehouses, instBig, aBig]
  have htt : totalTransport instBig aBig = 10 := by
    norm_num [totalTransport, extractedPairs, allPairs, selectedIds, selectedWarehouses,
      lookupCost, List.find?, instBig, aBig]
  refine ⟨?_, ?_, ?_, ?_⟩
  · norm_num [Satisfies, BinaryOpen, NonnegFlow, DemandSat, CapacityLink, CountBounds,
      PerRouteCap, inflow, outflow, openCount, instBig, aBig]
  · rw [hft, htt]
    norm_num
  · simp only [solveAndAnalyze, Option.map_some]
    norm_num [hft, htt]
  · intro habs
    rw [abs_le] at habs
    have hlow := habs.1
    norm_num at hlow

/-- Claim C5, amended: the extractor computes `fixedCostTotal` and
`transportCostTotal` but never compares their sum with the solver's
reported objective: the extraction result is entirely independent of the
objective value, so a mismatch of any size goes unraised. -/
theorem objective_not_verified (status : Int) (obj1 obj2 : ℚ) (inst : ProblemData)
    (a : Assignment) :
    solveAndAnalyze status obj1 inst a = solveAndAnalyze status obj2 inst a := rfl

end SupplyChain
